import Mathlib

/-!
# Verification of the `simplely77/workerpool` task-execution engine

Shallow embedding of the repository's data model and operations:

* `task.go` (Task, TaskOptions, option functions)
* `errors.go` (sentinel errors)
* `task_queue.go` (MemoryTaskQueue, priorityTaskQueue)
* `worker_pool.go` (NewWorkerPool defaults, Submit, Run, Resize)
* `worker.go` (worker lifecycle, consume cycle, run loop)

Go pointers to tasks are modelled by `Option Task` (a `nil` pointer is
`none`); Go `error` results are modelled by `Option WPError` (a `nil`
error is `none`); machine integers that never overflow in the modelled
runs are `Nat`/`Int`.
-/

namespace Workerpool

/-- `TaskOptions` from `task.go`: the mutable configuration subset of a
task (payload, timeout, queue name). The payload `[]byte` is a list of
byte values, the `time.Duration` a natural number of nanoseconds. -/
structure TaskOptions where
  payload : List Nat
  timeout : Nat
  queue : String
  deriving Repr, DecidableEq

/-- `Task` from `task.go`: embeds `TaskOptions` (Go struct embedding) and
adds the immutable identifier and handler key. -/
structure Task where
  opts : TaskOptions
  id : String
  key : String
  deriving Repr, DecidableEq

/-- `TaskOption` from `task.go`: Go mutates a `*TaskOptions` in place;
the functional translation returns the updated record. -/
def TaskOption : Type := TaskOptions → TaskOptions

/-- `WithTaskPayload` from `task.go`. -/
def WithTaskPayload (payload : List Nat) : TaskOption :=
  fun opts => { opts with payload := payload }

/-- `WithTaskQueue` from `task.go`. -/
def WithTaskQueue (queue : String) : TaskOption :=
  fun opts => { opts with queue := queue }

/-- `TaskOptions.Apply` from `task.go`: apply the option functions in
order. -/
def TaskOptions.Apply (o : TaskOptions) (opts : List TaskOption) : TaskOptions :=
  opts.foldl (fun acc opt => opt acc) o

/-- The sentinel error values of `errors.go`, together with the ad-hoc
`errors.New`/`errors.Errorf` errors produced elsewhere in the package.
`errors.WithStack` only decorates an error with a stack trace and keeps
`errors.Is` answering by the wrapped sentinel, so wrapping is dropped in
the model and `errors.Is e sentinel` becomes equality. -/
inductive WPError where
  | taskQueueFull
  | taskQueueEmpty
  | taskQueueNotFound
  | taskHandlerNotFound
  | poolNotRunning
  | poolAlreadyRunning
  | workerAlreadyRunning
  | workerNotRunning
  | panicRecovered (msg : String)
  | other (msg : String)
  deriving Repr, DecidableEq

/-- Result of one `Dequeue(ctx) (*Task, error)` call, as the Go caller
sees it: a possibly-nil task pointer and a possibly-nil error. -/
abbrev DeqRes : Type := Option Task × Option WPError

/-! ## `task_queue.go` -/

/-- `MemoryTaskQueue` from `task_queue.go`, at the interface the rest of
the package relies on: the external `mpmc.RingBuffer` created by
`ringbuf.New(capacity)` holds at most `capacity` tasks, reports
`ErrQueueFull` on `Enqueue` when full and `ErrQueueEmpty` on `Dequeue`
when empty. Contents are kept as a FIFO list. -/
structure MemoryTaskQueue where
  capacity : Nat
  data : List Task
  deriving Repr, DecidableEq

/-- `NewMemoryTaskQueue` from `task_queue.go`: a fresh ring buffer of the
given capacity. -/
def NewMemoryTaskQueue (capacity : Nat) : MemoryTaskQueue :=
  { capacity := capacity, data := [] }

/-- `MemoryTaskQueue.Enqueue` from `task_queue.go`: the ring buffer's
`ErrQueueFull` is mapped to `ErrTaskQueueFull`; otherwise the ring
buffer's (nil) error is returned and the task is stored. -/
def MemoryTaskQueue.EnqueueOp (q : MemoryTaskQueue) (task : Task) :
    MemoryTaskQueue × Option WPError :=
  if q.data.length ≥ q.capacity then
    (q, some WPError.taskQueueFull)
  else
    ({ q with data := q.data ++ [task] }, none)

/-- Outcome of the external ring buffer's `Dequeue()` call inside
`MemoryTaskQueue.Dequeue`: a possibly-nil task together with either no
error, `mpmc.ErrQueueEmpty`, or some other ring-buffer failure. -/
inductive RBErr where
  | rbQueueEmpty
  | rbOther (msg : String)
  deriving Repr, DecidableEq

/-- `MemoryTaskQueue.Dequeue` from `task_queue.go`, as a function of the
ring buffer's result `(task, err)`:

```go
task, err := q.data.Dequeue()
if errors.Is(err, mpmc.ErrQueueEmpty) {
    return nil, errors.WithStack(ErrTaskQueueEmpty)
}
return task, nil
```

Only the empty case produces an error; any other ring-buffer error is
dropped and `(task, nil)` is returned. -/
def MemoryTaskQueue.DequeueResult (rb : Option Task × Option RBErr) : DeqRes :=
  match rb.2 with
  | some RBErr.rbQueueEmpty => (none, some WPError.taskQueueEmpty)
  | _ => (rb.1, none)

/-- `queueWithPriority` from `task_queue.go`. A backend is represented by
its scan-time behaviour: the result its `Dequeue` would report when the
priority merge queue polls it. -/
structure QueueWithPriority where
  name : String
  priority : Int
  outcome : DeqRes
  deriving Repr, DecidableEq

/-- The comparison `newPriorityTaskQueue` sorts by: descending priority
(`queues[i].Priority > queues[j].Priority` handed to `sort.Slice`). -/
def priorityGE (a b : QueueWithPriority) : Prop := b.priority ≤ a.priority

instance : DecidableRel priorityGE := fun a b => inferInstanceAs (Decidable (b.priority ≤ a.priority))

/-- `newPriorityTaskQueue` from `task_queue.go`: sort the configured
queues by descending priority and keep the backends in that order.
`sort.Slice` is an unstable sort; any permutation sorted by descending
priority models it (ties are unspecified in the source). -/
def newPriorityTaskQueue (queues : List QueueWithPriority) : List QueueWithPriority :=
  List.insertionSort priorityGE queues

/-- The loop body of `priorityTaskQueue.Dequeue` from `task_queue.go`,
over the scan-time results of the (already sorted) backends:

```go
for _, queue := range q.queues {
    task, err := queue.Dequeue(ctx)
    if err != nil {
        if errors.Is(err, ErrTaskQueueEmpty) {
            continue // Try next queue
        }
        return nil, errors.WithStack(err) // Return error if not empty
    }
    return task, nil // Return the first available task
}
return nil, errors.WithStack(ErrTaskQueueEmpty) // All queues are empty
``` -/
def priorityDequeueLoop : List DeqRes → DeqRes
  | [] => (none, some WPError.taskQueueEmpty)
  | (task, err) :: rest =>
    match err with
    | some e =>
      if e = WPError.taskQueueEmpty then priorityDequeueLoop rest
      else (none, some e)
    | none => (task, none)

/-- `priorityTaskQueue.Dequeue` on a freshly built priority queue: sort
the configuration, then scan. -/
def priorityTaskQueueDequeue (queues : List QueueWithPriority) : DeqRes :=
  priorityDequeueLoop ((newPriorityTaskQueue queues).map QueueWithPriority.outcome)

/-- A backend result that the scan loop skips: the empty signal. -/
def isEmptyRes (r : DeqRes) : Bool := r.2 = some WPError.taskQueueEmpty

/-! ## `worker_pool.go` -/

/-- The parts of `workerPool` and `WorkerPoolConfig` the modelled
operations touch: the pool's atomic running flag, the configured
`WorkerSize` (never written after `NewWorkerPool`), the live worker
slice (each worker reduced to its running flag, in slice order), and the
queue map (an association list of in-memory backends). -/
structure WorkerPoolSt where
  running : Bool
  confWorkerSize : Nat
  workers : List Bool
  queues : List (String × MemoryTaskQueue)
  deriving Repr, DecidableEq

/-- Map lookup `p.conf.TaskQueues[name]` on the association-list model. -/
def lookupQueue (queues : List (String × MemoryTaskQueue)) (name : String) :
    Option MemoryTaskQueue :=
  match queues with
  | [] => none
  | (n, q) :: rest => if n = name then some q else lookupQueue rest name

/-- Store an updated backend back under its name. -/
def updateQueue (queues : List (String × MemoryTaskQueue)) (name : String)
    (q : MemoryTaskQueue) : List (String × MemoryTaskQueue) :=
  match queues with
  | [] => []
  | (n, q₀) :: rest =>
    if n = name then (n, q) :: rest else (n, q₀) :: updateQueue rest name q

/-- `workerPool.Submit` from `worker_pool.go`:

```go
if !p.running.Load() { return errors.New("worker pool is not running") }
newTask := *task                                  // value copy
for _, opt := range opts { opt(&newTask.TaskOptions) }
queue, ok := p.conf.TaskQueues[task.Queue]
if !ok { return errors.WithStack(ErrTaskQueueNotFound) }
return queue.Enqueue(ctx, task)                   // enqueues the ORIGINAL task
```

Note that both the map lookup and the enqueue use `task`, the caller's
original, not `newTask`; the copy with the options applied is discarded.
Returns the post-state and the returned error. -/
def workerPoolSubmit (p : WorkerPoolSt) (task : Task) (opts : List TaskOption) :
    WorkerPoolSt × Option WPError :=
  if p.running = false then
    (p, some WPError.poolNotRunning)
  else
    let newTask : Task := { task with opts := task.opts.Apply opts }
    match lookupQueue p.queues task.opts.queue with
    | none => (p, some WPError.taskQueueNotFound)
    | some queue =>
      let (q', err) := queue.EnqueueOp task
      ({ p with queues := updateQueue p.queues task.opts.queue q' }, err)

/-- The finalized copy `Submit` constructs (`newTask` with every option
applied); the claim compares the enqueued record against this. -/
def submitFinalizedCopy (task : Task) (opts : List TaskOption) : Task :=
  { task with opts := task.opts.Apply opts }

/-- The worker-spawning loop of `workerPool.Run`:

```go
for i, size := 0, p.conf.WorkerSize; i < int(size); i++ {
    worker := newWorker(p.conf)
    p.workers = append(p.workers, worker)
    err := worker.Run()
    if err != nil { return err }
}
```

`start i` abstracts the `worker.Run()` outcome for the `i`-th spawned
worker (in the concrete code a fresh worker's `Run` always succeeds; the
abstraction keeps the loop's error-check structure). On success the
appended worker is running (`true`); on failure it was appended before
`Run` failed and stays not running (`false`), and the loop stops with
that error. Recursion is on the remaining iteration count `size - i`. -/
def poolRunLoop (start : Nat → Option WPError) (i : Nat) :
    Nat → List Bool → List Bool × Option WPError
  | 0, acc => (acc, none)
  | n + 1, acc =>
    match start i with
    | none => poolRunLoop start (i + 1) n (acc ++ [true])
    | some e => (acc ++ [false], some e)

/-- `workerPool.Run` from `worker_pool.go`: compare-and-swap the running
flag from false to true (else "worker pool is running"), then spawn and
start `WorkerSize` workers, stopping at the first start error. -/
def workerPoolRun (p : WorkerPoolSt) (start : Nat → Option WPError) :
    WorkerPoolSt × Option WPError :=
  if p.running then
    (p, some WPError.poolAlreadyRunning)
  else
    let (ws, err) := poolRunLoop start 0 p.confWorkerSize p.workers
    ({ p with running := true, workers := ws }, err)

/-- The shrink loop of `workerPool.Resize`:

```go
for i := workerSize; i < p.conf.WorkerSize; i++ {
    if i < uint32(len(p.workers)) {
        err := p.workers[i].Stop()   // stop error only logged
        ...
    }
}
```

Iterated as recursion on the remaining count; `worker.Stop` leaves the
worker's running flag false whether or not it reported "not running". -/
def resizeStopLoop (ws : List Bool) (i : Nat) : Nat → List Bool
  | 0 => ws
  | n + 1 =>
    resizeStopLoop (if i < ws.length then ws.set i false else ws) (i + 1) n

/-- `workerPool.Resize` from `worker_pool.go`:

```go
if workerSize == 0 || workerSize == p.conf.WorkerSize { return nil }
if workerSize < p.conf.WorkerSize {            // shrink
    ... stop workers[workerSize:WorkerSize] ...
    p.workers = p.workers[:workerSize]
    return nil
}
for i := p.conf.WorkerSize; i < workerSize; i++ {   // grow
    worker := newWorker(p.conf); p.workers = append(p.workers, worker)
    err := worker.Run(); if err != nil { return err }
}
```

`p.conf.WorkerSize` is read but never written. In the shrink path the
re-slice `p.workers[:workerSize]` is only modelled when
`workerSize ≤ len(p.workers)` (beyond the length its behaviour depends
on the slice's hidden capacity); `none` marks that unmodelled case.
Fresh workers in the grow path start successfully, as in `Run`. -/
def workerPoolResize (p : WorkerPoolSt) (workerSize : Nat) : Option WorkerPoolSt :=
  if workerSize = 0 ∨ workerSize = p.confWorkerSize then
    some p
  else if workerSize < p.confWorkerSize then
    let ws := resizeStopLoop p.workers workerSize (p.confWorkerSize - workerSize)
    if workerSize ≤ ws.length then some { p with workers := ws.take workerSize }
    else none
  else
    some { p with
      workers := p.workers ++ List.replicate (workerSize - p.confWorkerSize) true }

/-- The pool's live worker count: workers in the slice whose running
flag is set. -/
def liveWorkers (p : WorkerPoolSt) : Nat := p.workers.count true

/-- The queue-map default of `NewWorkerPool` from `worker_pool.go`:

```go
if conf.TaskQueues == nil {
    conf.TaskQueues = map[string]TaskQueue{ "default": NewMemoryTaskQueue(1000) }
}
```

`none` models a nil map. -/
def resolveTaskQueues (conf : Option (List (String × MemoryTaskQueue))) :
    List (String × MemoryTaskQueue) :=
  match conf with
  | none => [("default", NewMemoryTaskQueue 1000)]
  | some qs => qs

/-- The priority-map default of `NewWorkerPool` from `worker_pool.go`:

```go
if conf.TaskQueuePriority == nil {
    conf.TaskQueuePriority = map[string]int{ "default": 1 }
}
``` -/
def resolveTaskQueuePriority (conf : Option (List (String × Int))) :
    List (String × Int) :=
  match conf with
  | none => [("default", 1)]
  | some m => m

/-! ## `worker.go` -/

/-- A Go panic value: `worker.consume`'s deferred `recover` distinguishes
a value that is an `error` from any other value. -/
inductive PanicVal where
  | errVal (e : WPError)
  | otherVal (msg : String)
  deriving Repr, DecidableEq

/-- Behaviour of a registered handler on one invocation: it returns a
(possibly nil) error, or it panics with some value. -/
inductive HandlerOutcome where
  | ret (e : Option WPError)
  | panics (v : PanicVal)
  deriving Repr, DecidableEq

/-- The process-wide handler registry `taskHandlers` of `task.go`, read
through `taskHandler(key)`: each registered key is mapped to the
behaviour its handler exhibits on the dequeued task. -/
def Registry : Type := String → Option HandlerOutcome

/-- `worker.consume` from `worker.go`, as a function of the dequeue
result and the registry:

```go
defer func() {
    if r := recover(); r != nil {
        if e, ok := r.(error); ok { err = errors.WithStack(e) }
        else { err = errors.Errorf("panic recovered: %v", r) }
    }
}()
task, err := w.conf.priorityTaskQueue.Dequeue(dequeueCtx)
if err != nil { return err }
handler := taskHandler(task.Key)
if handler == nil { return errors.WithStack(ErrTaskHandlerNotFound) }
return handler(taskCtx, task)
```

The deferred `recover` converts any panic below it — a handler panic,
or the nil-pointer dereference `task.Key` when the dequeue returned
`(nil, nil)` — into the returned error; a panic never escapes
`consume`. The model's total return type `Option WPError` embeds exactly
that: every branch, panicking or not, yields an error value. -/
def workerConsume (registry : Registry) (deq : DeqRes) : Option WPError :=
  match deq with
  | (_, some e) => some e
  | (none, none) =>
    some (WPError.panicRecovered "runtime error: invalid memory address or nil pointer dereference")
  | (some task, none) =>
    match registry task.key with
    | none => some WPError.taskHandlerNotFound
    | some (HandlerOutcome.ret e) => e
    | some (HandlerOutcome.panics (PanicVal.errVal e)) => some e
    | some (HandlerOutcome.panics (PanicVal.otherVal msg)) =>
      some (WPError.panicRecovered msg)

/-- The logging decision in the default branch of `worker.Run`'s loop:

```go
err := w.consume(ctx)
if err != nil && !errors.Is(err, ErrTaskQueueEmpty) {
    w.conf.Logger.Warn(ctx, "worker consume task error: %v", err)
}
```

Returns the warning's error when one is logged. -/
def consumeWarn (registry : Registry) (deq : DeqRes) : Option WPError :=
  match workerConsume registry deq with
  | none => none
  | some e => if e = WPError.taskQueueEmpty then none else some e

/-- One environment for a consume cycle: the registry in force and the
priority merge queue's dequeue result for that cycle. -/
abbrev CycleIn : Type := Registry × DeqRes

/-- The worker's run loop over a finite trace of cycle environments,
with the stop channel never firing: every cycle runs `consume`, logs a
warning exactly when `consumeWarn` says so, and — success, failure or
empty alike — continues to the next cycle. Returns the number of cycles
executed and the warnings logged, in order. -/
def workerRunTrace : List CycleIn → Nat × List WPError
  | [] => (0, [])
  | (registry, deq) :: rest =>
    let (n, warns) := workerRunTrace rest
    (n + 1, (consumeWarn registry deq).toList ++ warns)

/-- The worker's lifecycle state: the atomic running flag and whether
`close(w.stopCh)` has happened (a closed Go channel never reopens;
`newWorker` allocates it open). -/
structure WorkerSt where
  running : Bool
  stopClosed : Bool
  deriving Repr, DecidableEq

/-- `newWorker` from `worker.go`: not running, stop channel open. -/
def newWorker : WorkerSt := { running := false, stopClosed := false }

/-- The flag transition and result of `worker.Run` from `worker.go`:
compare-and-swap `running` from false to true, else the "already
running" error. (On success the consume goroutine is spawned; its
behaviour is `workerLoopConsumes`.) -/
def workerRunStart (w : WorkerSt) : WorkerSt × Option WPError :=
  if w.running then (w, some WPError.workerAlreadyRunning)
  else ({ w with running := true }, none)

/-- `worker.Stop` from `worker.go`: compare-and-swap `running` from true
to false, else the "not running" error; on success `close(w.stopCh)` and
wait for the goroutine. -/
def workerStop (w : WorkerSt) : WorkerSt × Option WPError :=
  if w.running then ({ running := false, stopClosed := true }, none)
  else (w, some WPError.workerNotRunning)

/-- How many consume cycles the goroutine spawned by `worker.Run`
executes within its first `fuel` loop iterations:

```go
for {
    select {
    case <-w.stopCh: return
    default: ... w.consume(ctx) ...
    }
}
```

Go's `select` takes the `default` branch only when no other case is
ready; a closed `stopCh` is always ready, so the loop returns before
consuming anything. While `stopCh` stays open every iteration consumes
once. -/
def workerLoopConsumes (stopClosed : Bool) : Nat → Nat
  | 0 => 0
  | fuel + 1 => if stopClosed then 0 else workerLoopConsumes stopClosed fuel + 1

/-! ## Theorems -/

instance : IsTotal QueueWithPriority priorityGE :=
  ⟨fun a b => le_total b.priority a.priority⟩

instance : IsTrans QueueWithPriority priorityGE :=
  ⟨fun _ _ _ h₁ h₂ => le_trans h₂ h₁⟩

/-- The spec's description of the scan: skip the leading backends that
report empty; if none remain, report the aggregate empty condition; if
the first remaining backend succeeded, return its task; if it failed
with a non-empty error, return that error (and a nil task). Written
from the contract's words, to be compared with `priorityDequeueLoop`. -/
def prioritySpecScan (rs : List DeqRes) : DeqRes :=
  match rs.dropWhile isEmptyRes with
  | [] => (none, some WPError.taskQueueEmpty)
  | (t, none) :: _ => (t, none)
  | (_, some e) :: _ => (none, some e)

lemma priorityDequeueLoop_eq_spec (rs : List DeqRes) :
    priorityDequeueLoop rs = prioritySpecScan rs := by
  induction rs with
  | nil => rfl
  | cons r rest ih =>
    obtain ⟨t, err⟩ := r
    cases err with
    | none =>
      simp [priorityDequeueLoop, prioritySpecScan, List.dropWhile, isEmptyRes]
    | some e =>
      by_cases he : e = WPError.taskQueueEmpty
      · subst he
        simpa [priorityDequeueLoop, prioritySpecScan, List.dropWhile, isEmptyRes] using ih
      · simp [priorityDequeueLoop, prioritySpecScan, List.dropWhile, isEmptyRes, he]

lemma prioritySpecScan_eq_empty_iff (rs : List DeqRes) :
    prioritySpecScan rs = (none, some WPError.taskQueueEmpty) ↔
      ∀ r ∈ rs, isEmptyRes r := by
  rw [← List.dropWhile_eq_nil_iff (p := isEmptyRes)]
  cases h : rs.dropWhile isEmptyRes with
  | nil => simp [prioritySpecScan, h]
  | cons head tl =>
    have hhead : ¬ isEmptyRes head := by
      have := List.dropWhile_get_zero_not (p := isEmptyRes) rs (by rw [h]; simp)
      simpa [h] using this
    obtain ⟨t, err⟩ := head
    cases err with
    | none => simp [prioritySpecScan, h]
    | some e =>
      have he : e ≠ WPError.taskQueueEmpty := by
        simpa [isEmptyRes] using hhead
      simp [prioritySpecScan, h, he]

/-- C1. `Dequeue` on the Priority Merge Queue scans a descending-priority
arrangement of the configured backends (a sorted permutation of the
configuration); the scan skips exactly the leading backends that report
empty and is decided by the first backend that does not: its task if it
succeeded, its error — returned immediately, without consulting
lower-priority backends — if it failed with a non-empty error; and the
aggregate empty condition is reported exactly when every backend
reported empty. -/
theorem priority_merge_dequeue_contract (queues : List QueueWithPriority) :
    List.Perm (newPriorityTaskQueue queues) queues
    ∧ List.Sorted priorityGE (newPriorityTaskQueue queues)
    ∧ priorityTaskQueueDequeue queues =
        prioritySpecScan ((newPriorityTaskQueue queues).map QueueWithPriority.outcome)
    ∧ (priorityTaskQueueDequeue queues = (none, some WPError.taskQueueEmpty) ↔
        ∀ q ∈ queues, q.outcome.2 = some WPError.taskQueueEmpty) := by
  refine ⟨List.perm_insertionSort priorityGE queues,
    List.sorted_insertionSort priorityGE queues,
    priorityDequeueLoop_eq_spec _, ?_⟩
  rw [priorityTaskQueueDequeue, priorityDequeueLoop_eq_spec, prioritySpecScan_eq_empty_iff]
  constructor
  · intro h q hq
    have hq' : q ∈ newPriorityTaskQueue queues :=
      (List.perm_insertionSort priorityGE queues).mem_iff.mpr hq
    have := h q.outcome (List.mem_map_of_mem QueueWithPriority.outcome hq')
    simpa [isEmptyRes] using this
  · intro h r hr
    obtain ⟨q, hq, rfl⟩ := List.mem_map.mp hr
    have hq' : q ∈ queues := (List.perm_insertionSort priorityGE queues).mem_iff.mp hq
    simpa [isEmptyRes] using h q hq'

/-- Witness for C1 at a concrete configuration: a priority-3 backend that
is empty, a priority-5 backend that is empty, and a priority-1 backend
holding a task — the scan skips the two higher-priority empty backends
and returns the priority-1 task. -/
theorem priority_merge_dequeue_contract_witness :
    priorityTaskQueueDequeue
        [⟨"low", 1, (some ⟨⟨[7], 10, "low"⟩, "id1", "k1"⟩, none)⟩,
         ⟨"mid", 3, (none, some WPError.taskQueueEmpty)⟩,
         ⟨"high", 5, (none, some WPError.taskQueueEmpty)⟩] =
      (some ⟨⟨[7], 10, "low"⟩, "id1", "k1"⟩, none) := by
  have h := priority_merge_dequeue_contract
    [⟨"low", 1, (some ⟨⟨[7], 10, "low"⟩, "id1", "k1"⟩, none)⟩,
     ⟨"mid", 3, (none, some WPError.taskQueueEmpty)⟩,
     ⟨"high", 5, (none, some WPError.taskQueueEmpty)⟩]
  rw [h.2.2.1]
  decide

/-- C2. Evaluation of `Submit` at a concrete failing input: a running
pool with the "default" backend, a task whose payload is `[1]`, and the
single option `WithTaskPayload [2]`. `Submit` accepts the task, but the
record enqueued to the backend is the caller's original task (payload
`[1]`), not the finalized copy `newTask` (payload `[2]`) that the
options were applied to — the copy is discarded, so the enqueued record
does not reflect the applied options. -/
theorem submit_enqueues_original_not_finalized_copy :
    (workerPoolSubmit ⟨true, 1, [true], [("default", NewMemoryTaskQueue 10)]⟩
        ⟨⟨[1], 5, "default"⟩, "id0", "k0"⟩ [WithTaskPayload [2]]).2 = none
    ∧ lookupQueue
        (workerPoolSubmit ⟨true, 1, [true], [("default", NewMemoryTaskQueue 10)]⟩
          ⟨⟨[1], 5, "default"⟩, "id0", "k0"⟩ [WithTaskPayload [2]]).1.queues "default" =
        some ⟨10, [⟨⟨[1], 5, "default"⟩, "id0", "k0"⟩]⟩
    ∧ submitFinalizedCopy ⟨⟨[1], 5, "default"⟩, "id0", "k0"⟩ [WithTaskPayload [2]] =
        ⟨⟨[2], 5, "default"⟩, "id0", "k0"⟩
    ∧ (⟨⟨[1], 5, "default"⟩, "id0", "k0"⟩ : Task) ≠
        submitFinalizedCopy ⟨⟨[1], 5, "default"⟩, "id0", "k0"⟩ [WithTaskPayload [2]] := by
  refine ⟨rfl, by decide, rfl, by decide⟩

lemma resizeStopLoop_length (c : Nat) :
    ∀ (ws : List Bool) (i : Nat), (resizeStopLoop ws i c).length = ws.length := by
  induction c with
  | zero => intro ws i; rfl
  | succ c ih =>
    intro ws i
    rw [resizeStopLoop, ih]
    by_cases h : i < ws.length <;> simp [h]

lemma take_set_of_le {α : Type} (ws : List α) (i j : Nat) (x : α) (h : j ≤ i) :
    (ws.set i x).take j = ws.take j := by
  induction ws generalizing i j with
  | nil => simp
  | cons a l ih =>
    cases i with
    | zero =>
      have : j = 0 := Nat.le_zero.mp h
      subst this; simp
    | succ k =>
      cases j with
      | zero => simp
      | succ m =>
        simp only [List.set_cons_succ, List.take_succ_cons]
        rw [ih k m (Nat.le_of_succ_le_succ h)]

lemma resizeStopLoop_take (c : Nat) :
    ∀ (ws : List Bool) (i j : Nat), j ≤ i →
      (resizeStopLoop ws i c).take j = ws.take j := by
  induction c with
  | zero => intro ws i j _; rfl
  | succ c ih =>
    intro ws i j hj
    rw [resizeStopLoop, ih _ (i + 1) j (Nat.le_succ_of_le hj)]
    by_cases h : i < ws.length
    · simp only [h, if_true]
      exact take_set_of_le ws i j false hj
    · simp [h]

lemma count_true_replicate (k : Nat) : (List.replicate k true).count true = k := by
  induction k with
  | zero => rfl
  | succ k ih => simp [List.replicate_succ, List.count_cons, ih]

/-- C3 (amended). From a pool whose live worker set matches its
configured `WorkerSize` `n ≥ 1` (the state `Run` establishes),
`Resize(0)` and `Resize(n)` are no-ops returning the pool unchanged,
`Resize(1)` leaves exactly 1 live worker, and `Resize(n+5)` leaves
exactly `n+5` live workers. (Repeated resizes are NOT covered: `Resize`
never updates the configured `WorkerSize`, so a shrink followed by a
grow miscounts — see the counterexample.) -/
theorem resize_single_step_counts (n : Nat) (hn : 1 ≤ n) :
    workerPoolResize ⟨true, n, List.replicate n true, []⟩ 0 =
        some ⟨true, n, List.replicate n true, []⟩
    ∧ workerPoolResize ⟨true, n, List.replicate n true, []⟩ n =
        some ⟨true, n, List.replicate n true, []⟩
    ∧ (workerPoolResize ⟨true, n, List.replicate n true, []⟩ 1).map liveWorkers =
        some 1
    ∧ (workerPoolResize ⟨true, n, List.replicate n true, []⟩ (n + 5)).map liveWorkers =
        some (n + 5) := by
  refine ⟨by simp [workerPoolResize], by simp [workerPoolResize], ?_, ?_⟩
  · by_cases h1 : n = 1
    · subst h1
      decide
    · have hlt : 1 < n := lt_of_le_of_ne hn (fun h => h1 h.symm)
      have hlen : 1 ≤ (resizeStopLoop (List.replicate n true) 1 (n - 1)).length := by
        rw [resizeStopLoop_length, List.length_replicate]
        exact hn
      have htake : (resizeStopLoop (List.replicate n true) 1 (n - 1)).take 1 =
          (List.replicate n true).take 1 := resizeStopLoop_take (n - 1) _ 1 1 le_rfl
      have hrep : (List.replicate n true).take 1 = [true] := by
        cases n with
        | zero => omega
        | succ m => simp [List.replicate_succ]
      simp only [workerPoolResize]
      rw [if_neg (by omega), if_pos hlt, if_pos hlen]
      simp [liveWorkers, htake, hrep]
  · simp only [workerPoolResize]
    rw [if_neg (by omega), if_neg (by omega)]
    simp [liveWorkers, List.count_append, count_true_replicate]

/-- Witness for C3 (amended) at `n = 3`. -/
theorem resize_single_step_counts_witness :
    workerPoolResize ⟨true, 3, List.replicate 3 true, []⟩ 0 =
        some ⟨true, 3, List.replicate 3 true, []⟩
    ∧ workerPoolResize ⟨true, 3, List.replicate 3 true, []⟩ 3 =
        some ⟨true, 3, List.replicate 3 true, []⟩
    ∧ (workerPoolResize ⟨true, 3, List.replicate 3 true, []⟩ 1).map liveWorkers =
        some 1
    ∧ (workerPoolResize ⟨true, 3, List.replicate 3 true, []⟩ 8).map liveWorkers =
        some 8 :=
  resize_single_step_counts 3 (by decide)

/-- C3 counterexample. A pool started with `WorkerSize = 2` (2 live
workers), shrunk to 1 worker by `Resize(1)`, then asked to grow to
`current + 5 = 6` by `Resize(6)`: because `Resize` compares against the
never-updated configured size 2, the grow loop appends only `6 - 2 = 4`
workers, leaving 5 live workers where the claim requires 6 (and 5
entries in the worker slice, under either reading of "live worker
count"). -/
theorem resize_shrink_then_grow_miscounts :
    ((workerPoolResize ⟨true, 2, [true, true], []⟩ 1).bind
        (fun p => workerPoolResize p 6)).map liveWorkers = some 5
    ∧ ((workerPoolResize ⟨true, 2, [true, true], []⟩ 1).bind
        (fun p => workerPoolResize p 6)).map (fun p => p.workers.length) = some 5
    ∧ (5 : Nat) ≠ 6 := by
  decide

/-- A sample registry for concrete runs: "boom" panics with a non-error
value, "fail" returns an error, "task" succeeds, anything else is
unregistered. -/
def demoRegistry : Registry := fun key =>
  if key = "boom" then some (HandlerOutcome.panics (PanicVal.otherVal "kaboom"))
  else if key = "fail" then some (HandlerOutcome.ret (some (WPError.other "handler failed")))
  else if key = "task" then some (HandlerOutcome.ret none)
  else none

/-- A sample task with the given handler key. -/
def demoTask (key : String) : Task := ⟨⟨[], 0, "default"⟩, "id", key⟩

lemma workerRunTrace_fst (l : List CycleIn) : (workerRunTrace l).1 = l.length := by
  induction l with
  | nil => rfl
  | cons c rest ih =>
    obtain ⟨registry, deq⟩ := c
    simp [workerRunTrace, ih]

/-- C4. When the handler for a dequeued task panics, `consume`'s
deferred `recover` turns the panic into the returned error value — the
wrapped error itself when the panic value is an error, a
"panic recovered" error otherwise; `consume`'s (total) return shows the
panic never escapes the worker thread; and the run loop still executes
every cycle of any surrounding trace, so the worker continues with the
next consume cycle. -/
theorem handler_panic_contained (registry : Registry) (t : Task) (v : PanicVal)
    (h : registry t.key = some (HandlerOutcome.panics v)) :
    workerConsume registry (some t, none) =
      some (match v with
            | PanicVal.errVal e => e
            | PanicVal.otherVal msg => WPError.panicRecovered msg)
    ∧ ∀ pre post : List CycleIn,
        (workerRunTrace (pre ++ (registry, (some t, none)) :: post)).1 =
          pre.length + 1 + post.length := by
  constructor
  · cases v with
    | errVal e => simp [workerConsume, h]
    | otherVal msg => simp [workerConsume, h]
  · intro pre post
    rw [workerRunTrace_fst]
    simp [List.length_append]
    omega

/-- Witness for C4: the "boom" handler panics with the string "kaboom";
the consume cycle reports the recovered panic as an error and a
one-cycle trace completes. -/
theorem handler_panic_contained_witness :
    workerConsume demoRegistry (some (demoTask "boom"), none) =
      some (WPError.panicRecovered "kaboom")
    ∧ (workerRunTrace [(demoRegistry, (some (demoTask "boom"), none))]).1 = 1 := by
  have h := handler_panic_contained demoRegistry (demoTask "boom")
    (PanicVal.otherVal "kaboom") (by decide)
  exact ⟨h.1, by simpa using h.2 [] []⟩

/-- C5. The run loop logs a warning exactly for the consume cycles whose
result is a non-nil, non-queue-empty error: a queue-empty consume result
is swallowed, a non-empty dequeue failure is logged, a missing handler
is logged as handler-not-found, a handler error is logged, and no
consume result of any kind stops the loop — every cycle of a trace is
executed. -/
theorem worker_loop_warn_policy :
    (∀ (registry : Registry) (deq : DeqRes), consumeWarn registry deq = none ↔
        workerConsume registry deq = none
        ∨ workerConsume registry deq = some WPError.taskQueueEmpty)
    ∧ (∀ (registry : Registry) (deq : DeqRes) (e : WPError),
        e ≠ WPError.taskQueueEmpty → workerConsume registry deq = some e →
        consumeWarn registry deq = some e)
    ∧ (∀ (registry : Registry) (t : Task), registry t.key = none →
        consumeWarn registry (some t, none) = some WPError.taskHandlerNotFound)
    ∧ (∀ registry : Registry,
        consumeWarn registry (none, some WPError.taskQueueEmpty) = none)
    ∧ (∀ (registry : Registry) (e : WPError), e ≠ WPError.taskQueueEmpty →
        consumeWarn registry (none, some e) = some e)
    ∧ (∀ l : List CycleIn, (workerRunTrace l).1 = l.length) := by
  refine ⟨?_, ?_, ?_, ?_, ?_, workerRunTrace_fst⟩
  · intro registry deq
    cases h : workerConsume registry deq with
    | none => simp [consumeWarn, h]
    | some e =>
      by_cases he : e = WPError.taskQueueEmpty <;> simp [consumeWarn, h, he]
  · intro registry deq e he h
    simp [consumeWarn, h, he]
  · intro registry t h
    simp [consumeWarn, workerConsume, h]
  · intro registry
    simp [consumeWarn, workerConsume]
  · intro registry e he
    simp [consumeWarn, workerConsume, he]

/-- Witness for C5: a queue-empty cycle logs nothing, a non-empty
dequeue failure is logged, and a two-cycle trace executes both cycles. -/
theorem worker_loop_warn_policy_witness :
    consumeWarn demoRegistry (none, some WPError.taskQueueEmpty) = none
    ∧ consumeWarn demoRegistry (none, some (WPError.other "redis down")) =
        some (WPError.other "redis down")
    ∧ consumeWarn demoRegistry (some (demoTask "nope"), none) =
        some WPError.taskHandlerNotFound
    ∧ (workerRunTrace [(demoRegistry, (none, some WPError.taskQueueEmpty)),
        (demoRegistry, (some (demoTask "fail"), none))]).1 = 2 := by
  have h := worker_loop_warn_policy
  exact ⟨h.2.2.2.1 demoRegistry,
    h.2.2.2.2.1 demoRegistry (WPError.other "redis down") (by decide),
    h.2.2.1 demoRegistry (demoTask "nope") (by decide),
    h.2.2.2.2.2 _⟩

lemma poolRunLoop_all_ok (start : Nat → Option WPError) :
    ∀ (n i : Nat) (acc : List Bool), (∀ j, j < n → start (i + j) = none) →
      poolRunLoop start i n acc = (acc ++ List.replicate n true, none) := by
  intro n
  induction n with
  | zero => intro i acc _; simp [poolRunLoop]
  | succ n ih =>
    intro i acc h
    have h0 : start i = none := by simpa using h 0 (Nat.succ_pos n)
    rw [poolRunLoop, h0, ih (i + 1) (acc ++ [true])
      (fun j hj => by rw [show i + 1 + j = i + (j + 1) by omega]; exact h (j + 1) (by omega))]
    simp [List.replicate_succ]

lemma poolRunLoop_first_fail (start : Nat → Option WPError) (e : WPError) :
    ∀ (j n i : Nat) (acc : List Bool), j < n →
      (∀ m, m < j → start (i + m) = none) → start (i + j) = some e →
      poolRunLoop start i n acc = (acc ++ List.replicate j true ++ [false], some e) := by
  intro j
  induction j with
  | zero =>
    intro n i acc hn _ hfail
    cases n with
    | zero => omega
    | succ n =>
      rw [poolRunLoop, show start i = some e by simpa using hfail]
      simp
  | succ j ih =>
    intro n i acc hn hok hfail
    cases n with
    | zero => omega
    | succ n =>
      have h0 : start i = none := by simpa using hok 0 (Nat.succ_pos j)
      rw [poolRunLoop, h0, ih n (i + 1) (acc ++ [true]) (by omega)
        (fun m hm => by rw [show i + 1 + m = i + (m + 1) by omega]; exact hok (m + 1) (by omega))
        (by rw [show i + 1 + j = i + (j + 1) by omega]; exact hfail)]
      simp [List.replicate_succ]

/-- C6. `workerPool.Run`: when the pool is already running it reports
the "already running" error and changes nothing; from the stopped state
it flips the running flag and spawns exactly `WorkerSize` workers, all
started, when every start succeeds; and when the `j`-th worker's start
fails, that error is returned immediately — the `j` previously started
workers stay in the slice running (no rollback) and the failed worker's
entry remains appended, with the pool still marked running. -/
theorem pool_run_spawns_worker_size (p : WorkerPoolSt) (start : Nat → Option WPError) :
    (p.running = true → workerPoolRun p start = (p, some WPError.poolAlreadyRunning))
    ∧ (p.running = false → (∀ j, j < p.confWorkerSize → start j = none) →
        workerPoolRun p start =
          ({ p with
              running := true
              workers := p.workers ++ List.replicate p.confWorkerSize true }, none))
    ∧ (∀ (j : Nat) (e : WPError), p.running = false → j < p.confWorkerSize →
        (∀ m, m < j → start m = none) → start j = some e →
        workerPoolRun p start =
          ({ p with
              running := true
              workers := p.workers ++ List.replicate j true ++ [false] }, some e)) := by
  refine ⟨fun h => by simp [workerPoolRun, h], ?_, ?_⟩
  · intro h hok
    rw [workerPoolRun, if_neg (by simp [h]),
      poolRunLoop_all_ok start p.confWorkerSize 0 p.workers (by simpa using hok)]
  · intro j e h hj hok hfail
    rw [workerPoolRun, if_neg (by simp [h]),
      poolRunLoop_first_fail start e j p.confWorkerSize 0 p.workers hj
        (by simpa using hok) (by simpa using hfail)]

/-- Witness for C6: a stopped pool of configured size 2 whose worker
starts all succeed spawns two running workers; a stopped pool of size 3
whose second start fails stops right there with one started worker and
the failed one appended. -/
theorem pool_run_spawns_worker_size_witness :
    workerPoolRun ⟨false, 2, [], []⟩ (fun _ => none) =
      (⟨true, 2, [true, true], []⟩, none)
    ∧ workerPoolRun ⟨false, 3, [], []⟩
        (fun i => if i = 1 then some (WPError.other "spawn failed") else none) =
      (⟨true, 3, [true, false], []⟩, some (WPError.other "spawn failed")) := by
  have h1 := (pool_run_spawns_worker_size ⟨false, 2, [], []⟩ (fun _ => none)).2.1
    rfl (fun j _ => rfl)
  have h2 := (pool_run_spawns_worker_size ⟨false, 3, [], []⟩
      (fun i => if i = 1 then some (WPError.other "spawn failed") else none)).2.2
    1 (WPError.other "spawn failed") rfl (by decide)
    (fun m hm => by interval_cases m <;> rfl) (by rfl)
  refine ⟨by simpa using h1, by simpa using h2⟩

/-- C7 counterexample. A running pool whose "default" backend (capacity
1) is already full: `Submit` finds the pool running and the queue
present — neither of the two claimed error cases applies — yet it
returns the queue-full error from the backend's `Enqueue`
synchronously. -/
theorem submit_errors_beyond_two_cases :
    (⟨true, 1, [true], [("default", ⟨1, [demoTask "task"]⟩)]⟩ : WorkerPoolSt).running = true
    ∧ lookupQueue [("default", ⟨1, [demoTask "task"]⟩)] "default" =
        some ⟨1, [demoTask "task"]⟩
    ∧ (workerPoolSubmit ⟨true, 1, [true], [("default", ⟨1, [demoTask "task"]⟩)]⟩
        (demoTask "task") []).2 = some WPError.taskQueueFull := by
  refine ⟨rfl, by decide, by decide⟩

/-- C7 (amended). `Submit` returns a synchronous error when the pool is
not running or the task's queue name is missing from the backend map —
and in those two cases the pool state is unchanged, nothing enqueued —
and additionally passes the backend's `Enqueue` failure (queue-full)
through to the caller; when the backend accepts the task, `Submit`
returns nil, so failures of the task after acceptance are never
returned to the submitter. -/
theorem submit_error_cases (p : WorkerPoolSt) (t : Task) (opts : List TaskOption) :
    (p.running = false →
        workerPoolSubmit p t opts = (p, some WPError.poolNotRunning))
    ∧ (p.running = true → lookupQueue p.queues t.opts.queue = none →
        workerPoolSubmit p t opts = (p, some WPError.taskQueueNotFound))
    ∧ (∀ q : MemoryTaskQueue, p.running = true →
        lookupQueue p.queues t.opts.queue = some q →
        q.data.length ≥ q.capacity →
        workerPoolSubmit p t opts =
          ({ p with queues := updateQueue p.queues t.opts.queue q }, some WPError.taskQueueFull))
    ∧ (∀ q : MemoryTaskQueue, p.running = true →
        lookupQueue p.queues t.opts.queue = some q →
        q.data.length < q.capacity →
        workerPoolSubmit p t opts =
          ({ p with queues :=
              updateQueue p.queues t.opts.queue { q with data := q.data ++ [t] } }, none)) := by
  refine ⟨fun h => by simp [workerPoolSubmit, h], ?_, ?_, ?_⟩
  · intro hrun hlook
    simp [workerPoolSubmit, hrun, hlook]
  · intro q hrun hlook hfull
    simp [workerPoolSubmit, hrun, hlook, MemoryTaskQueue.EnqueueOp, hfull]
  · intro q hrun hlook hroom
    simp [workerPoolSubmit, hrun, hlook, MemoryTaskQueue.EnqueueOp, Nat.not_le.mpr hroom]

/-- Witness for C7 (amended): a stopped pool rejects with not-running; a
running pool without the task's queue rejects with queue-not-found and
leaves the state unchanged; a running pool with room accepts and
returns nil. -/
theorem submit_error_cases_witness :
    workerPoolSubmit ⟨false, 1, [], [("default", NewMemoryTaskQueue 10)]⟩
        (demoTask "task") [] =
      (⟨false, 1, [], [("default", NewMemoryTaskQueue 10)]⟩, some WPError.poolNotRunning)
    ∧ workerPoolSubmit ⟨true, 1, [true], [("other", NewMemoryTaskQueue 10)]⟩
        (demoTask "task") [] =
      (⟨true, 1, [true], [("other", NewMemoryTaskQueue 10)]⟩, some WPError.taskQueueNotFound)
    ∧ (workerPoolSubmit ⟨true, 1, [true], [("default", NewMemoryTaskQueue 10)]⟩
        (demoTask "task") []).2 = none := by
  refine ⟨(submit_error_cases _ _ _).1 rfl,
    (submit_error_cases _ _ _).2.1 rfl (by decide), ?_⟩
  rw [(submit_error_cases ⟨true, 1, [true], [("default", NewMemoryTaskQueue 10)]⟩
    (demoTask "task") []).2.2.2 (NewMemoryTaskQueue 10) rfl (by decide) (by decide)]

/-- Folding `MemoryTaskQueue.Enqueue` over a list of tasks, stopping at
the first error: used to show the capacity-1000 default queue is
reachable into a full state. -/
def enqueueAll (q : MemoryTaskQueue) : List Task → MemoryTaskQueue × Option WPError
  | [] => (q, none)
  | t :: rest =>
    match q.EnqueueOp t with
    | (q', none) => enqueueAll q' rest
    | (q', some e) => (q', some e)

lemma enqueueAll_of_room (ts : List Task) :
    ∀ q : MemoryTaskQueue, q.data.length + ts.length ≤ q.capacity →
      enqueueAll q ts = ({ q with data := q.data ++ ts }, none) := by
  induction ts with
  | nil => intro q _; simp [enqueueAll]
  | cons t rest ih =>
    intro q h
    have hroom : ¬ q.data.length ≥ q.capacity := by
      simp only [List.length_cons] at h
      omega
    rw [enqueueAll, MemoryTaskQueue.EnqueueOp, if_neg hroom]
    simp only
    rw [ih { q with data := q.data ++ [t] }
      (by simp only [List.length_cons] at h; simp; omega)]
    simp

/-- C8 counterexample. With no queue map supplied, the pool's queue map
is the single in-memory queue "default" built by
`NewMemoryTaskQueue(1000)` — capacity 1000, not unbounded: after 1000
accepted enqueues (all succeeding from the fresh state) the 1001st
enqueue is rejected with the queue-full error. -/
theorem default_queue_capacity_bounded :
    resolveTaskQueues none = [("default", NewMemoryTaskQueue 1000)]
    ∧ (NewMemoryTaskQueue 1000).capacity = 1000
    ∧ enqueueAll (NewMemoryTaskQueue 1000) (List.replicate 1000 (demoTask "task")) =
        (⟨1000, List.replicate 1000 (demoTask "task")⟩, none)
    ∧ (MemoryTaskQueue.EnqueueOp ⟨1000, List.replicate 1000 (demoTask "task")⟩
        (demoTask "task")).2 = some WPError.taskQueueFull := by
  refine ⟨rfl, rfl, ?_, ?_⟩
  · rw [enqueueAll_of_room (List.replicate 1000 (demoTask "task"))
      (NewMemoryTaskQueue 1000)
      (by simp only [NewMemoryTaskQueue, List.length_nil, List.length_replicate]; omega)]
    simp only [NewMemoryTaskQueue, List.nil_append]
  · rw [MemoryTaskQueue.EnqueueOp,
      if_pos (by simp only [List.length_replicate]; omega)]

/-- C8 (amended). With no queue map supplied, `NewWorkerPool` installs
exactly one in-memory queue, named "default", with capacity 1000 and
initially empty; with no priority map supplied, "default" gets
priority 1. -/
theorem default_config_queue_and_priority :
    resolveTaskQueues none = [("default", NewMemoryTaskQueue 1000)]
    ∧ (NewMemoryTaskQueue 1000).capacity = 1000
    ∧ (NewMemoryTaskQueue 1000).data = []
    ∧ resolveTaskQueuePriority none = [("default", 1)] :=
  ⟨rfl, rfl, rfl, rfl⟩

/-- C9. `MemoryTaskQueue.Dequeue` reports a non-nil error only for the
ring buffer's queue-empty signal; any other ring-buffer failure is
dropped, returning the (possibly nil) task with a nil error — in
particular `(nil, nil)` when the ring buffer failed with a non-empty
error — so in a priority merge scan this backend's entry either ends
the scan with its error-free result or is skipped as empty: the scan's
immediate-error branch is never taken on it. -/
theorem memory_dequeue_error_only_empty (rb : Option Task × Option RBErr) :
    ((MemoryTaskQueue.DequeueResult rb).2 ≠ none →
        (MemoryTaskQueue.DequeueResult rb).2 = some WPError.taskQueueEmpty)
    ∧ (∀ msg, rb = (none, some (RBErr.rbOther msg)) →
        MemoryTaskQueue.DequeueResult rb = (none, none))
    ∧ (∀ rest : List DeqRes,
        priorityDequeueLoop (MemoryTaskQueue.DequeueResult rb :: rest) =
          if (MemoryTaskQueue.DequeueResult rb).2 = none
          then MemoryTaskQueue.DequeueResult rb
          else priorityDequeueLoop rest) := by
  obtain ⟨t, err⟩ := rb
  cases err with
  | none =>
    refine ⟨fun h => absurd rfl h, fun msg h => by simp at h, fun rest => ?_⟩
    simp [MemoryTaskQueue.DequeueResult, priorityDequeueLoop]
  | some e =>
    cases e with
    | rbQueueEmpty =>
      refine ⟨fun _ => rfl, fun msg h => by simp at h, fun rest => ?_⟩
      simp [MemoryTaskQueue.DequeueResult, priorityDequeueLoop]
    | rbOther msg =>
      refine ⟨fun h => absurd rfl h, fun m h => by rw [h]; rfl, fun rest => ?_⟩
      simp [MemoryTaskQueue.DequeueResult, priorityDequeueLoop]

/-- Witness for C9: a ring-buffer failure other than empty yields
`(nil, nil)`, and the merge scan returns that error-free result instead
of reaching its error branch. -/
theorem memory_dequeue_error_only_empty_witness :
    MemoryTaskQueue.DequeueResult (none, some (RBErr.rbOther "corrupt slot")) = (none, none)
    ∧ priorityDequeueLoop
        [MemoryTaskQueue.DequeueResult (none, some (RBErr.rbOther "corrupt slot")),
         (none, some (WPError.other "never reached"))] = (none, none) := by
  have h := memory_dequeue_error_only_empty (none, some (RBErr.rbOther "corrupt slot"))
  refine ⟨h.2.1 "corrupt slot" rfl, ?_⟩
  rw [h.2.2 [(none, some (WPError.other "never reached"))]]
  decide

/-- C10. A worker cannot be restarted: on a fresh worker `Run` succeeds
and `Stop` succeeds, closing the stop channel for good; a second `Run`
still returns nil — the compare-and-swap from not-running succeeds
again — but the goroutine it spawns finds the stop channel already
closed (Go's `select` takes `default` only when no other case is
ready), so for any number of loop iterations it executes zero consume
cycles: the worker never consumes another task. Before the stop, the
open channel let every iteration consume. -/
theorem worker_restart_consumes_nothing :
    (workerRunStart newWorker).2 = none
    ∧ (∀ fuel, workerLoopConsumes (workerRunStart newWorker).1.stopClosed fuel = fuel)
    ∧ (workerStop (workerRunStart newWorker).1).2 = none
    ∧ (workerRunStart (workerStop (workerRunStart newWorker).1).1).2 = none
    ∧ (workerRunStart (workerStop (workerRunStart newWorker).1).1).1.stopClosed = true
    ∧ (∀ fuel, workerLoopConsumes
        (workerRunStart (workerStop (workerRunStart newWorker).1).1).1.stopClosed fuel = 0) := by
  refine ⟨rfl, ?_, rfl, rfl, rfl, ?_⟩
  · intro fuel
    induction fuel with
    | zero => rfl
    | succ n ih =>
      show workerLoopConsumes false (n + 1) = n + 1
      rw [workerLoopConsumes, if_neg (by simp)]
      simpa using ih
  · intro fuel
    cases fuel with
    | zero => rfl
    | succ n => rfl

/-- Witness for C10 at seven loop iterations: a worker taken through
Run–Stop–Run consumes zero tasks in seven iterations, where the first
run would have consumed seven. -/
theorem worker_restart_consumes_nothing_witness :
    workerLoopConsumes (workerRunStart newWorker).1.stopClosed 7 = 7
    ∧ workerLoopConsumes
        (workerRunStart (workerStop (workerRunStart newWorker).1).1).1.stopClosed 7 = 0 :=
  ⟨worker_restart_consumes_nothing.2.1 7,
   worker_restart_consumes_nothing.2.2.2.2.2 7⟩

end Workerpool
